import Mathlib

/-!
Verification of the expressive-state-mapper repository: a shallow embedding
of `feature_extractor.py` and `baseline_analyzer.py` over exact rationals.

Modelling conventions:
* Python floats are modelled as `ℚ`; float literals such as `1e-6`, `1.253`,
  `0.1`, `0.17` are taken at their decimal face value.
* Transcendental primitives (`math.sqrt`, `math.acos`, `np.log`) are passed in
  as abstract functions `ℚ → ℚ`; no claim in scope depends on their values.
* Python dicts are association lists `List (String × _)` in insertion order.
* Division by zero is total rational division (no claim exercises a zero
  denominator along a reachable path).
-/

/-- Python `int()` truncation toward zero on a rational. -/
def pyTrunc (q : ℚ) : ℤ :=
  if 0 ≤ q then ⌊q⌋ else -⌊-q⌋

/-- Python float `%` with divisor 6: `x - 6*⌊x/6⌋`, always in `[0, 6)`. -/
def pyMod6 (x : ℚ) : ℚ :=
  x - 6 * ⌊x / 6⌋

/-- Python `round()` on a rational: round half to even. -/
def pyRound (q : ℚ) : ℤ :=
  let f := ⌊q⌋
  let r := q - f
  if r < 1/2 then f
  else if 1/2 < r then f + 1
  else if f % 2 = 0 then f else f + 1

/-- Ascending sort, as used by `np.median` and `scipy`'s partial sort. -/
def npSort (l : List ℚ) : List ℚ :=
  l.insertionSort (· ≤ ·)

/-- Embeds `np.mean`: sum divided by length (0 on the empty list, which the code
never reaches). -/
def npMean (l : List ℚ) : ℚ :=
  l.sum / l.length

/-- Embeds `np.var`: population variance, the mean of squared deviations. -/
def npVar (l : List ℚ) : ℚ :=
  npMean (l.map fun x => (x - npMean l) ^ 2)

/-- Embeds `np.std`: square root of the population variance, with the square root
supplied as an abstract primitive. -/
def npStd (sq : ℚ → ℚ) (l : List ℚ) : ℚ :=
  sq (npVar l)

/-- Embeds `np.max` on a nonempty list (0 on the empty list, never reached). -/
def npMax (l : List ℚ) : ℚ :=
  match l with
  | [] => 0
  | x :: xs => xs.foldl max x

/-- Embeds `np.median`: middle element of the sorted list, or the average of the two
middle elements for even length. -/
def npMedian (l : List ℚ) : ℚ :=
  let s := npSort l
  let n := l.length
  if n % 2 = 1 then s.getD (n / 2) 0
  else (s.getD (n / 2 - 1) 0 + s.getD (n / 2) 0) / 2

/-- One baseline entry: robust location and scale for one feature. -/
structure BaselineEntry where
  median : ℚ
  mad : ℚ
deriving DecidableEq, Repr

/-- One step of the value-collection loop of `compute_robust_baseline`:
append `v` to the list held for `k`, creating the key at the end on first
sight (Python dict insertion order). -/
def addValue (acc : List (String × List ℚ)) (k : String) (v : ℚ) :
    List (String × List ℚ) :=
  if acc.any (fun p => p.1 = k) then
    acc.map (fun p => if p.1 = k then (p.1, p.2 ++ [v]) else p)
  else acc ++ [(k, [v])]

/-- The `feature_values` dict of `compute_robust_baseline`: for each feature
key, the list of its values across the recent window, in encounter order. -/
def featureValues (recent : List (List (String × ℚ))) :
    List (String × List ℚ) :=
  recent.foldl (fun acc features =>
    features.foldl (fun a p => addValue a p.1 p.2) acc) []

/-- The MAD floor policy of `compute_robust_baseline` (lines 49-53): a MAD
below `1e-6` is replaced by `std/1.253`, and by `0.1` if that is still below
`1e-6`. -/
def madFloor (sq : ℚ → ℚ) (values : List ℚ) (mad : ℚ) : ℚ :=
  if mad < 1/1000000 then
    let m2 := npStd sq values / (1253/1000)
    if m2 < 1/1000000 then 1/10 else m2
  else mad

/-- The per-feature body of `compute_robust_baseline`: fewer than 3 values
gives `{median, mad = 0.0}`; otherwise median and floored MAD. -/
def baselineEntryOf (sq : ℚ → ℚ) (values : List ℚ) : BaselineEntry :=
  if values.length < 3 then ⟨npMedian values, 0⟩
  else
    let med := npMedian values
    let mad := npMedian (values.map fun v => |v - med|)
    ⟨med, madFloor sq values mad⟩

/-- Embeds `compute_robust_baseline(feature_history, window)`. -/
def compute_robust_baseline (sq : ℚ → ℚ)
    (feature_history : List (List (String × ℚ))) (window : ℕ) :
    List (String × BaselineEntry) :=
  if feature_history = [] then []
  else
    (featureValues (feature_history.take window)).map
      (fun p => (p.1, baselineEntryOf sq p.2))

/-- Embeds `compute_z_scores(features, baseline)`: per current feature,
`(value - median) / mad` when the key is in the baseline with `mad > 0`,
else `0.0`. -/
def compute_z_scores (features : List (String × ℚ))
    (baseline : List (String × BaselineEntry)) : List (String × ℚ) :=
  features.map (fun p =>
    (p.1,
      match baseline.lookup p.1 with
      | none => 0
      | some e => if 0 < e.mad then (p.2 - e.median) / e.mad else 0))

/-- Embeds `scipy.stats.trim_mean(a, proportiontocut)`: with
`lowercut = int(proportiontocut * nobs)` and `uppercut = nobs - lowercut`,
the mean of the order statistics `lowercut, ..., uppercut - 1`. -/
def trimMean (l : List ℚ) (proportiontocut : ℚ) : ℚ :=
  let nobs := l.length
  let lowercut := (pyTrunc (proportiontocut * nobs)).toNat
  npMean (((npSort l).drop lowercut).take (nobs - lowercut - lowercut))

/-- Embeds `compute_anomaly_score(zmap, trim)`: 0.0 on an empty map, otherwise the
trimmed mean of the absolute z-scores. -/
def compute_anomaly_score (zmap : List (String × ℚ)) (trim : ℚ) : ℚ :=
  if zmap = [] then 0
  else trimMean (zmap.map fun p => |p.2|) trim

/-- The fixed lexicon of `generate_interpretation_text`. -/
def descriptions : List (String × String) :=
  [("geom.mean_curvature", "curvature"),
   ("geom.total_length", "total ink length"),
   ("geom.pen_lift_rate", "pen lifts"),
   ("color.hue_variance", "color diversity"),
   ("color.palette_size", "number of colors"),
   ("comp.spatial_entropy", "spatial distribution"),
   ("geom.mean_velocity", "drawing speed"),
   ("geom.std_velocity", "speed variation"),
   ("comp.vertical_symmetry", "symmetry"),
   ("layer.eraser_ratio", "eraser usage")]

/-- The direction word: `"higher" if z > 0 else "lower"`. -/
def directionWord (z : ℚ) : String :=
  if 0 < z then "higher" else "lower"

/-- Embeds `generate_interpretation_text(top_features)`. -/
def generate_interpretation_text (top_features : List (String × ℚ)) : String :=
  if top_features = [] then "No significant deviations detected."
  else
    "Top signals: " ++ String.intercalate ", "
      ((top_features.take 3).map (fun p =>
        directionWord p.2 ++ " " ++ ((descriptions.lookup p.1).getD p.1)))

/-- One telemetry point: coordinates, timestamp (ms), optional pressure.
`x`, `y`, `t` are accessed unconditionally by the extractor, so they are
required fields; `pressure` is looked up with `in`. -/
structure Point where
  x : ℚ
  y : ℚ
  t : ℚ
  pressure : Option ℚ
deriving DecidableEq, Repr

/-- One stroke. Fields read through `dict.get` are `Option`s carrying the
source defaults at the use sites; `width`, `closed` and `id` are never read
by the extractor and are omitted. -/
structure Stroke where
  points : Option (List Point)
  color : Option String
  opacity : Option ℚ
  tool : Option String
  layer : Option ℚ
deriving DecidableEq, Repr

/-- One drawing payload; `strokes`, `canvas_w`, `canvas_h` are read through
`dict.get` with defaults `[]`, 800, 600. -/
structure Drawing where
  strokes : Option (List Stroke)
  canvas_w : Option ℚ
  canvas_h : Option ℚ
deriving DecidableEq, Repr

/-- Embeds `stroke.get("points", [])`. -/
def strokePts (s : Stroke) : List Point :=
  s.points.getD []

/-- Clamped 10-cell grid index `min(int(coord / extent * 10), 9)` used by the
spatial-entropy histogram. -/
def gridIndex (extent : ℚ) (coord : ℚ) : ℤ :=
  min (pyTrunc (coord / extent * 10)) 9

/-- The flattened 10×10 spatial histogram, rows `j` then columns `i` as in
`grid[j, i]`. A clamped index in `[-10, -1]` wraps exactly as a numpy index
does; `extract_composition_features` fails before counting when any index
is below -10, which numpy rejects with `IndexError`, so this definition is
only reached on in-range indices. -/
def gridCounts (pts : List (ℚ × ℚ)) (w h : ℚ) : List ℚ :=
  (List.range 10).flatMap (fun j =>
    (List.range 10).map (fun i =>
      ((pts.filter (fun p =>
        (gridIndex w p.1).emod 10 = i ∧ (gridIndex h p.2).emod 10 = j)).length : ℚ)))

/-- Clamped rule-of-thirds index `min(int(coord / (extent / 3)), 2)`. -/
def thirdsIndex (extent : ℚ) (coord : ℚ) : ℤ :=
  min (pyTrunc (coord / (extent / 3))) 2

/-- The flattened 3×3 rule-of-thirds histogram. A clamped index in
`[-3, -1]` wraps as a numpy index does; `extract_composition_features`
fails before counting when any index is below -3, which numpy rejects with
`IndexError`. -/
def thirdsCounts (pts : List (ℚ × ℚ)) (w h : ℚ) : List ℚ :=
  (List.range 3).flatMap (fun j =>
    (List.range 3).map (fun i =>
      ((pts.filter (fun p =>
        (thirdsIndex w p.1).emod 3 = i ∧ (thirdsIndex h p.2).emod 3 = j)).length : ℚ)))

/-- The collected `(x, y)` pairs of every point of every stroke. -/
def allPointsOf (strokes : List Stroke) : List (ℚ × ℚ) :=
  strokes.flatMap (fun s => (strokePts s).map (fun p => (p.x, p.y)))

/-- The Shannon-entropy expression of the 10×10 histogram, with `np.log`
abstract and the `1e-10` epsilons of the source. -/
def spatialEntropy (lg : ℚ → ℚ) (pts : List (ℚ × ℚ)) (w h : ℚ) : ℚ :=
  let eps : ℚ := 1/10000000000
  let grid := gridCounts pts w h
  let gridNorm := grid.map (fun c => c / (grid.sum + eps))
  let ent := -((gridNorm.map (fun q => q * lg (q + eps))).sum)
  ent

/-- Embeds `np.count_nonzero` over the rule-of-thirds histogram. -/
def thirdsOccupied (pts : List (ℚ × ℚ)) (w h : ℚ) : ℚ :=
  ((thirdsCounts pts w h).filter (fun c => c ≠ 0)).length

/-- Computes `1 - |left - right| / (total + 1e-10)` split at the horizontal canvas
midpoint. -/
def verticalSymmetry (pts : List (ℚ × ℚ)) (w : ℚ) : ℚ :=
  let leftN : ℚ := (pts.filter (fun p => p.1 < w / 2)).length
  let rightN : ℚ := (pts.filter (fun p => w / 2 ≤ p.1)).length
  1 - |leftN - rightN| / (leftN + rightN + 1/10000000000)

/-- Embeds `extract_composition_features(strokes, canvas_w, canvas_h)`, with `np.log`
abstract. Returns the empty dict when no stroke has any point, and `none`
for the `IndexError` numpy raises when some point's clamped grid index is
below -10 (first loop) or its clamped thirds index is below -3 (second
loop): `min(..., 9)` puts no lower bound on a far-negative coordinate. -/
def extract_composition_features (lg : ℚ → ℚ) (strokes : List Stroke)
    (canvas_w canvas_h : ℚ) : Option (List (String × ℚ)) :=
  let all_points := allPointsOf strokes
  if all_points = [] then some []
  else if ∃ p ∈ all_points,
      gridIndex canvas_w p.1 < -10 ∨ gridIndex canvas_h p.2 < -10 then none
  else if ∃ p ∈ all_points,
      thirdsIndex canvas_w p.1 < -3 ∨ thirdsIndex canvas_h p.2 < -3 then none
  else some
    [("comp.centroid_x",
       ((all_points.map (fun p => p.1)).sum / (all_points.length : ℚ)) / canvas_w),
     ("comp.centroid_y",
       ((all_points.map (fun p => p.2)).sum / (all_points.length : ℚ)) / canvas_h),
     ("comp.spatial_entropy", spatialEntropy lg all_points canvas_w canvas_h),
     ("comp.thirds_occupied", thirdsOccupied all_points canvas_w canvas_h),
     ("comp.vertical_symmetry", verticalSymmetry all_points canvas_w)]

/-- Euclidean lengths of the consecutive segments of a polyline,
`math.sqrt` abstract. -/
def segLengths (sq : ℚ → ℚ) (pts : List Point) : List ℚ :=
  (pts.zip pts.tail).map (fun pr =>
    sq ((pr.2.x - pr.1.x) ^ 2 + (pr.2.y - pr.1.y) ^ 2))

/-- Turning angles at the interior points of a polyline: arccosine of the
clamped cosine similarity of consecutive segment vectors. -/
def curvAngles (sq ac : ℚ → ℚ) (pts : List Point) : List ℚ :=
  (pts.zip (pts.tail.zip pts.tail.tail)).map (fun tr =>
    let p0 := tr.1
    let p1 := tr.2.1
    let p2 := tr.2.2
    let v1x := p1.x - p0.x
    let v1y := p1.y - p0.y
    let v2x := p2.x - p1.x
    let v2y := p2.y - p1.y
    let len1 := sq (v1x * v1x + v1y * v1y) + 1/10000000000
    let len2 := sq (v2x * v2x + v2y * v2y) + 1/10000000000
    ac (max (-1) (min 1 ((v1x * v2x + v1y * v2y) / (len1 * len2)))))

/-- Per-segment velocities, skipping zero-or-negative time deltas. -/
def segVelocities (sq : ℚ → ℚ) (pts : List Point) : List ℚ :=
  (pts.zip pts.tail).filterMap (fun pr =>
    let dt := (pr.2.t - pr.1.t) / 1000
    if 0 < dt then
      some (sq ((pr.2.x - pr.1.x) ^ 2 + (pr.2.y - pr.1.y) ^ 2) / dt)
    else none)

/-- The strokes the geometry loop does not `continue` past: those with at
least 2 points. -/
def validStrokes (strokes : List Stroke) : List Stroke :=
  strokes.filter (fun s => 2 ≤ (strokePts s).length)

/-- The `total_time` accumulator: running maximum (from 0) of the last
point's timestamp over the strokes with at least 2 points. -/
def totalTime (strokes : List Stroke) : ℚ :=
  (validStrokes strokes).foldl
    (fun acc s => max acc (((strokePts s).getLast?.map (fun p => p.t)).getD 0)) 0

/-- The `stroke_lengths` accumulator: polyline length per stroke with at
least 2 points. -/
def strokeLengthsOf (sq : ℚ → ℚ) (strokes : List Stroke) : List ℚ :=
  (validStrokes strokes).map (fun s => (segLengths sq (strokePts s)).sum)

/-- The `curvatures` accumulator over the strokes with at least 2 points. -/
def curvaturesOf (sq ac : ℚ → ℚ) (strokes : List Stroke) : List ℚ :=
  (validStrokes strokes).flatMap (fun s => curvAngles sq ac (strokePts s))

/-- The `velocities` accumulator over the strokes with at least 2 points. -/
def velocitiesOf (sq : ℚ → ℚ) (strokes : List Stroke) : List ℚ :=
  (validStrokes strokes).flatMap (fun s => segVelocities sq (strokePts s))

/-- The `pressures` accumulator: pressure values of the points of the
strokes with at least 2 points (a stroke the loop `continue`s past
contributes none). -/
def pressuresOf (strokes : List Stroke) : List ℚ :=
  (validStrokes strokes).flatMap
    (fun s => (strokePts s).filterMap (fun p => p.pressure))

/-- Embeds `extract_geometry_features(strokes)` with `math.sqrt`/`math.acos`
abstract. The source stores per-branch constants under the same keys in the
same order; that is rendered as one pair per key with a conditional value. -/
def extract_geometry_features (sq ac : ℚ → ℚ) (strokes : List Stroke) :
    List (String × ℚ) :=
  let stroke_lengths := strokeLengthsOf sq strokes
  let curvatures := curvaturesOf sq ac strokes
  let velocities := velocitiesOf sq strokes
  let pressures := pressuresOf strokes
  let total_time := totalTime strokes
  [("geom.total_length", stroke_lengths.sum),
   ("geom.mean_stroke_length", if stroke_lengths = [] then 0 else npMean stroke_lengths),
   ("geom.std_stroke_length", if stroke_lengths = [] then 0 else npStd sq stroke_lengths),
   ("geom.mean_curvature", if curvatures = [] then 0 else npMean curvatures),
   ("geom.max_curvature", if curvatures = [] then 0 else npMax curvatures),
   ("geom.high_curvature_pct",
     if curvatures = [] then 0
     else ((curvatures.filter (fun c => 1 < c)).length : ℚ) / curvatures.length),
   ("geom.mean_velocity", if velocities = [] then 0 else npMean velocities),
   ("geom.std_velocity", if velocities = [] then 0 else npStd sq velocities),
   ("geom.mean_pressure", if pressures = [] then 1 else npMean pressures),
   ("geom.std_pressure", if pressures = [] then 0 else npStd sq pressures),
   ("geom.pen_lift_rate",
     if 0 < total_time then (strokes.length : ℚ) / (total_time / 1000) else 0)]

/-- Value of one hex digit character. -/
def hexDigit (c : Char) : Option ℕ :=
  if '0' ≤ c ∧ c ≤ '9' then some (c.toNat - '0'.toNat)
  else if 'a' ≤ c ∧ c ≤ 'f' then some (c.toNat - 'a'.toNat + 10)
  else if 'A' ≤ c ∧ c ≤ 'F' then some (c.toNat - 'A'.toNat + 10)
  else none

/-- The whitespace code points that CPython `int(s, 16)` strips from both
ends of its argument. -/
def pySpaceCodes : List ℕ :=
  [9, 10, 11, 12, 13, 32, 133, 160, 5760, 8192, 8193, 8194,
   8195, 8196, 8197, 8198, 8199, 8200, 8201, 8202, 8232, 8233, 8239, 8287,
   12288]

/-- Whether a character counts as whitespace for Python `int`. -/
def isPySpace (c : Char) : Bool :=
  pySpaceCodes.contains c.toNat

/-- Removes Python whitespace from both ends, as `int` does before parsing. -/
def stripPySpaces (cs : List Char) : List Char :=
  ((cs.dropWhile isPySpace).reverse.dropWhile isPySpace).reverse

/-- Continuation of the digit run of Python `int(s, 16)` after the first
digit: further digits, with a single underscore allowed between two digits
(a trailing, doubled or misplaced underscore fails). `acc` is the value
accumulated so far. -/
def pyHexDigitRun : List Char → ℕ → Option ℕ
  | [], acc => some acc
  | '_' :: c :: rest, acc =>
    match hexDigit c with
    | none => none
    | some d => pyHexDigitRun rest (16 * acc + d)
  | c :: rest, acc =>
    match hexDigit c with
    | none => none
    | some d => pyHexDigitRun rest (16 * acc + d)

/-- The digit part of Python `int(s, 16)`: a non-empty run of hex digits,
underscores permitted only between digits. CPython additionally accepts
non-ASCII unicode decimal digits; those are not modelled. -/
def pyHexDigits (cs : List Char) : Option ℕ :=
  match cs with
  | [] => none
  | c :: rest =>
    match hexDigit c with
    | none => none
    | some d => pyHexDigitRun rest d

/-- Python `int(s, 16)` on the characters of `s`: strip whitespace, then an
optional single sign followed by a non-empty digit run — so `int("+1", 16)`
is `1` and `int("-f", 16)` is `-15`. The `0x`/`0X` prefix form needs at
least 3 characters and can never parse inside the 2-character slices the
extractor takes, so it is omitted. -/
def pyIntHex (cs : List Char) : Option ℤ :=
  match stripPySpaces cs with
  | '+' :: rest => (pyHexDigits rest).map (fun n => (n : ℤ))
  | '-' :: rest => (pyHexDigits rest).map (fun n => -(n : ℤ))
  | t => (pyHexDigits t).map (fun n => (n : ℤ))

/-- Python `int(color[i:j], 16)`: the slice clamps silently, and the parse
is `pyIntHex` on the sliced characters. -/
def parseHexSlice (color : String) (i j : ℕ) : Option ℤ :=
  pyIntHex ((color.data.drop i).take (j - i))

/-- The three `int(color[...], 16) / 255.0` reads of `extract_color_features`;
`none` models the `ValueError` that aborts the whole extraction. A signed
slice such as `"+1"` or `"-f"` parses, so a channel can be negative. -/
def parseColor (color : String) : Option (ℚ × ℚ × ℚ) := do
  let r ← parseHexSlice color 1 3
  let g ← parseHexSlice color 3 5
  let b ← parseHexSlice color 5 7
  pure ((r : ℚ) / 255, (g : ℚ) / 255, (b : ℚ) / 255)

/-- Embeds `rgb_to_hsv(r, g, b)`: the six-way piecewise hue formula. -/
def rgb_to_hsv (r g b : ℚ) : ℚ × ℚ × ℚ :=
  let max_c := max r (max g b)
  let min_c := min r (min g b)
  let delta := max_c - min_c
  let v := max_c
  let s := if max_c = 0 then 0 else delta / max_c
  let hpre :=
    if delta = 0 then 0
    else if max_c = r then pyMod6 ((g - b) / delta)
    else if max_c = g then (b - r) / delta + 2
    else (r - g) / delta + 4
  (hpre / 6, s, v)

/-- Embeds `color.startswith("#")`: the first character is `#`. -/
def startsWithHash (color : String) : Bool :=
  color.data.head? = some '#'

/-- The collection loop of `extract_color_features`: HSV triple per stroke
whose color starts with `#` (failing the whole pass on an unparsable one),
and the opacity of every stroke. -/
def collectColors : List Stroke → Option (List (ℚ × ℚ × ℚ) × List ℚ)
  | [] => some ([], [])
  | s :: rest =>
    let color := s.color.getD "#000000"
    let opacity := s.opacity.getD 1
    if startsWithHash color then
      match parseColor color with
      | none => none
      | some rgb =>
        (collectColors rest).map (fun pr =>
          (rgb_to_hsv rgb.1 rgb.2.1 rgb.2.2 :: pr.1, opacity :: pr.2))
    else
      (collectColors rest).map (fun pr => (pr.1, opacity :: pr.2))

/-- The seven feature pairs of `extract_color_features`, given the collected
HSV triples and opacities. -/
def colorFeatureList (sq : ℚ → ℚ) (colors : List (ℚ × ℚ × ℚ))
    (opacities : List ℚ) : List (String × ℚ) :=
  let hues := colors.map (fun c => c.1)
  [("color.palette_size",
     if colors = [] then 1
     else (((hues.map (fun h => pyRound (h * 12))).dedup.length : ℕ) : ℚ)),
   ("color.hue_variance", if colors = [] then 0 else npVar hues),
   ("color.mean_saturation",
     if colors = [] then 0 else npMean (colors.map (fun c => c.2.1))),
   ("color.mean_value",
     if colors = [] then 0 else npMean (colors.map (fun c => c.2.2))),
   ("color.warm_proportion",
     if colors = [] then 0
     else ((hues.filter (fun h => (0 ≤ h ∧ h < 17/100) ∨ 83/100 < h)).length : ℚ)
       / hues.length),
   ("color.mean_opacity", if opacities = [] then 1 else npMean opacities),
   ("color.std_opacity", if opacities = [] then 0 else npStd sq opacities)]

/-- Embeds `extract_color_features(strokes)`: `none` models the `ValueError` raised
on a `#`-prefixed color that does not parse. -/
def extract_color_features (sq : ℚ → ℚ) (strokes : List Stroke) :
    Option (List (String × ℚ)) :=
  (collectColors strokes).map (fun pr => colorFeatureList sq pr.1 pr.2)

/-- Embeds `extract_layering_features(strokes)`. -/
def extract_layering_features (sq : ℚ → ℚ) (strokes : List Stroke) :
    List (String × ℚ) :=
  let layers := strokes.map (fun s => s.layer.getD 0)
  [("layer.mean", if layers = [] then 0 else npMean layers),
   ("layer.std", if layers = [] then 0 else npStd sq layers),
   ("layer.eraser_ratio",
     if strokes = [] then 0
     else ((strokes.filter (fun s => s.tool = some "eraser")).length : ℚ)
       / strokes.length)]

/-- Embeds `get_empty_features()`: the fixed default vector. -/
def get_empty_features : List (String × ℚ) :=
  [("comp.centroid_x", 1/2),
   ("comp.centroid_y", 1/2),
   ("comp.spatial_entropy", 0),
   ("comp.thirds_occupied", 0),
   ("comp.vertical_symmetry", 1),
   ("geom.total_length", 0),
   ("geom.mean_stroke_length", 0),
   ("geom.std_stroke_length", 0),
   ("geom.mean_curvature", 0),
   ("geom.max_curvature", 0),
   ("geom.high_curvature_pct", 0),
   ("geom.mean_velocity", 0),
   ("geom.std_velocity", 0),
   ("geom.mean_pressure", 1),
   ("geom.std_pressure", 0),
   ("geom.pen_lift_rate", 0),
   ("color.palette_size", 1),
   ("color.hue_variance", 0),
   ("color.mean_saturation", 0),
   ("color.mean_value", 0),
   ("color.warm_proportion", 0),
   ("color.mean_opacity", 1),
   ("color.std_opacity", 0),
   ("layer.mean", 0),
   ("layer.std", 0),
   ("layer.eraser_ratio", 0)]

/-- Embeds `extract_features(drawing_data)`: default vector on an empty or absent
strokes list, otherwise the four category dicts in update order; the
composition pass runs first and can fail on a far-negative point, then the
color pass can fail on an unparsable `#`-color, and either failure aborts
the whole call. -/
def extract_features (sq ac lg : ℚ → ℚ) (d : Drawing) :
    Option (List (String × ℚ)) :=
  let strokes := d.strokes.getD []
  let canvas_w := d.canvas_w.getD 800
  let canvas_h := d.canvas_h.getD 600
  if strokes = [] then some get_empty_features
  else
    (extract_composition_features lg strokes canvas_w canvas_h).bind
      (fun compFeats =>
        (extract_color_features sq strokes).map (fun colorFeats =>
          compFeats
            ++ extract_geometry_features sq ac strokes
            ++ colorFeats
            ++ extract_layering_features sq strokes))

/-- The fixed 26-key vocabulary, in emission order. -/
def vocabKeys : List String :=
  get_empty_features.map (fun p => p.1)

/-- Spec-side predicate for claim C4: a well-formed `"#RRGGBB"` color
string — a `#` followed by exactly six hex digits. -/
def wellFormedRRGGBB (c : String) : Prop :=
  c.data.length = 7 ∧ c.data.head? = some '#' ∧
    ∀ ch ∈ c.data.tail, (hexDigit ch).isSome = true

instance (c : String) : Decidable (wellFormedRRGGBB c) := by
  unfold wellFormedRRGGBB
  infer_instance

/-- Spec-side quantity for claim C7: the maximum timestamp across all points
of all strokes (0 when there is none). -/
def maxTimestampAll (strokes : List Stroke) : ℚ :=
  (strokes.flatMap (fun s => (strokePts s).map (fun p => p.t))).foldl max 0

/-- Spec-side quantity for claim C7: stroke count over session duration in
seconds, with the duration read as the maximum timestamp across all points;
0 when that duration is 0. -/
def claimPenLiftRate (strokes : List Stroke) : ℚ :=
  let dur := maxTimestampAll strokes / 1000
  if dur = 0 then 0 else (strokes.length : ℚ) / dur

/-- Spec-side quantity for claim C8: the pressure values of all points of
all strokes, including strokes with fewer than 2 points. -/
def pressuresAll (strokes : List Stroke) : List ℚ :=
  strokes.flatMap (fun s => (strokePts s).filterMap (fun p => p.pressure))

/-- Spec-side quantity for claim C8: mean over all points carrying a
pressure value, 1.0 when there is none. -/
def claimMeanPressure (strokes : List Stroke) : ℚ :=
  if pressuresAll strokes = [] then 1 else npMean (pressuresAll strokes)

/-! Concrete fixture drawings used by the counterexamples and witnesses. -/

/-- The C7 fixture: a 2-point stroke ending at t = 1000 ms and a 1-point
stroke at t = 2000 ms. -/
def strokesC7 : List Stroke :=
  [⟨some [⟨0, 0, 0, none⟩, ⟨1, 0, 1000, none⟩], none, none, none, none⟩,
   ⟨some [⟨0, 0, 2000, none⟩], none, none, none, none⟩]

def drawingC7 : Drawing := ⟨some strokesC7, none, none⟩

/-- The C8 fixture: a 1-point stroke carrying pressure 0.5 and a 2-point
stroke carrying no pressure. -/
def strokesC8 : List Stroke :=
  [⟨some [⟨0, 0, 0, some (1/2)⟩], none, none, none, none⟩,
   ⟨some [⟨0, 0, 0, none⟩, ⟨1, 0, 0, none⟩], none, none, none, none⟩]

def drawingC8 : Drawing := ⟨some strokesC8, none, none⟩

def strokesC9 : List Stroke :=
  [⟨none, some "#FF0000", none, none, none⟩,
   ⟨none, some "#FF8000", none, none, none⟩,
   ⟨none, some "#FFFF00", none, none, none⟩,
   ⟨none, some "#80FF00", none, none, none⟩,
   ⟨none, some "#00FF00", none, none, none⟩,
   ⟨none, some "#00FF80", none, none, none⟩,
   ⟨none, some "#00FFFF", none, none, none⟩,
   ⟨none, some "#0080FF", none, none, none⟩,
   ⟨none, some "#0000FF", none, none, none⟩,
   ⟨none, some "#8000FF", none, none, none⟩,
   ⟨none, some "#FF00FF", none, none, none⟩,
   ⟨none, some "#FF0080", none, none, none⟩,
   ⟨none, some "#FF0001", none, none, none⟩]

def drawingC9 : Drawing := ⟨some strokesC9, none, none⟩

def colorsC9 : List (ℚ × ℚ × ℚ) :=
  [(0, 1, 1), (64/765, 1, 1), (1/6, 1, 1), (191/765, 1, 1), (1/3, 1, 1),
   (319/765, 1, 1), (1/2, 1, 1), (446/765, 1, 1), (2/3, 1, 1),
   (574/765, 1, 1), (5/6, 1, 1), (701/765, 1, 1), (1529/1530, 1, 1)]

/-! ## Helper lemmas -/

/-- The per-feature MAD of a baseline entry is 0 exactly when fewer than 3
values were observed: with 3 or more values every branch of the floor policy
produces a value that is at least `1e-6` or the constant `0.1`. -/
theorem baselineEntryOf_mad_eq_zero_iff (sq : ℚ → ℚ) (vs : List ℚ) :
    (baselineEntryOf sq vs).mad = 0 ↔ vs.length < 3 := by
  unfold baselineEntryOf
  by_cases h : vs.length < 3
  · simp [h]
  · rw [if_neg h]
    simp only [h, iff_false]
    show madFloor sq vs (npMedian (vs.map fun v => |v - npMedian vs|)) ≠ 0
    generalize npMedian (vs.map fun v => |v - npMedian vs|) = m
    unfold madFloor
    split_ifs with h1
    · show (if npStd sq vs / (1253/1000) < 1/1000000 then (1:ℚ)/10
        else npStd sq vs / (1253/1000)) ≠ 0
      split_ifs with h2
      · norm_num
      · intro hz
        rw [hz] at h2
        norm_num at h2
    · intro hz
      rw [hz] at h1
      norm_num at h1

/-- Looking up a key in a value-mapped association list with `Nodup` keys
finds the image of the unique pair holding that key. -/
theorem lookup_map_assoc {β : Type} (l : List (String × ℚ))
    (f : String × ℚ → β) (k : String) (v : ℚ) (hmem : (k, v) ∈ l)
    (hnd : (l.map Prod.fst).Nodup) :
    (l.map (fun p => (p.1, f p))).lookup k = some (f (k, v)) := by
  induction l with
  | nil => cases hmem
  | cons a l ih =>
    simp only [List.map_cons] at hnd ⊢
    rcases List.mem_cons.1 hmem with heq | htl
    · subst heq
      simp [List.lookup]
    · have hk : a.1 ≠ k := by
        intro hak
        exact (List.nodup_cons.1 hnd).1 (hak ▸ List.mem_map_of_mem Prod.fst htl)
      simp only [List.lookup]
      rw [show (k == a.1) = false from beq_eq_false_iff_ne.2 (fun he => hk he.symm)]
      exact ih htl (List.nodup_cons.1 hnd).2

/-- The composition pass fails exactly when some point's clamped grid index
lies below numpy's lower bound -10 or its clamped thirds index lies below
-3, in either axis. -/
theorem comp_eq_none_iff (lg : ℚ → ℚ) (strokes : List Stroke) (w h : ℚ) :
    extract_composition_features lg strokes w h = none ↔
      ∃ p ∈ allPointsOf strokes,
        gridIndex w p.1 < -10 ∨ gridIndex h p.2 < -10 ∨
        thirdsIndex w p.1 < -3 ∨ thirdsIndex h p.2 < -3 := by
  unfold extract_composition_features
  by_cases hap : allPointsOf strokes = []
  · rw [if_pos hap]
    apply iff_of_false
    · intro hcon
      cases hcon
    · intro ⟨p, hp, _⟩
      rw [hap] at hp
      cases hp
  · rw [if_neg hap]
    by_cases hg : ∃ p ∈ allPointsOf strokes,
        gridIndex w p.1 < -10 ∨ gridIndex h p.2 < -10
    · rw [if_pos hg]
      apply iff_of_true rfl
      obtain ⟨p, hp, hb⟩ := hg
      exact ⟨p, hp, by tauto⟩
    · rw [if_neg hg]
      by_cases ht : ∃ p ∈ allPointsOf strokes,
          thirdsIndex w p.1 < -3 ∨ thirdsIndex h p.2 < -3
      · rw [if_pos ht]
        apply iff_of_true rfl
        obtain ⟨p, hp, hb⟩ := ht
        exact ⟨p, hp, by tauto⟩
      · rw [if_neg ht]
        apply iff_of_false
        · intro hcon
          cases hcon
        · intro ⟨p, hp, hb⟩
          rcases hb with h1 | h2 | h3 | h4
          · exact hg ⟨p, hp, Or.inl h1⟩
          · exact hg ⟨p, hp, Or.inr h2⟩
          · exact ht ⟨p, hp, Or.inl h3⟩
          · exact ht ⟨p, hp, Or.inr h4⟩

/-- When every point's clamped indices are in numpy's accepted range, the
composition pass succeeds. -/
theorem comp_isSome_of_inBounds (lg : ℚ → ℚ) (strokes : List Stroke) (w h : ℚ)
    (hb : ∀ p ∈ allPointsOf strokes,
      -10 ≤ gridIndex w p.1 ∧ -10 ≤ gridIndex h p.2 ∧
      -3 ≤ thirdsIndex w p.1 ∧ -3 ≤ thirdsIndex h p.2) :
    ∃ cf, extract_composition_features lg strokes w h = some cf := by
  cases hcomp : extract_composition_features lg strokes w h with
  | some cf => exact ⟨cf, rfl⟩
  | none =>
    exfalso
    obtain ⟨p, hp, hbad⟩ := (comp_eq_none_iff lg strokes w h).1 hcomp
    rcases hb p hp with ⟨b1, b2, b3, b4⟩
    rcases hbad with h1 | h2 | h3 | h4 <;> omega

/-- A point with nonnegative coordinates on a nonnegative canvas always has
clamped indices in numpy's accepted range. -/
theorem inBounds_of_nonneg (w h : ℚ) (hw : 0 ≤ w) (hh : 0 ≤ h)
    (p : ℚ × ℚ) (hx : 0 ≤ p.1) (hy : 0 ≤ p.2) :
    -10 ≤ gridIndex w p.1 ∧ -10 ≤ gridIndex h p.2 ∧
    -3 ≤ thirdsIndex w p.1 ∧ -3 ≤ thirdsIndex h p.2 := by
  have h1 : (0:ℚ) ≤ p.1 / w * 10 := by
    have hd := div_nonneg hx hw
    linarith
  have h2 : (0:ℚ) ≤ p.2 / h * 10 := by
    have hd := div_nonneg hy hh
    linarith
  have h3 : (0:ℚ) ≤ p.1 / (w / 3) := div_nonneg hx (by linarith)
  have h4 : (0:ℚ) ≤ p.2 / (h / 3) := div_nonneg hy (by linarith)
  have f1 : (0:ℤ) ≤ ⌊p.1 / w * 10⌋ := Int.le_floor.2 (by exact_mod_cast h1)
  have f2 : (0:ℤ) ≤ ⌊p.2 / h * 10⌋ := Int.le_floor.2 (by exact_mod_cast h2)
  have f3 : (0:ℤ) ≤ ⌊p.1 / (w / 3)⌋ := Int.le_floor.2 (by exact_mod_cast h3)
  have f4 : (0:ℤ) ≤ ⌊p.2 / (h / 3)⌋ := Int.le_floor.2 (by exact_mod_cast h4)
  unfold gridIndex thirdsIndex pyTrunc
  rw [if_pos h1, if_pos h2, if_pos h3, if_pos h4]
  exact ⟨le_min (by omega) (by norm_num), le_min (by omega) (by norm_num),
    le_min (by omega) (by norm_num), le_min (by omega) (by norm_num)⟩

/-! ## Claim C2 -/

/-- C2 (counterexample): on the one-entry history `[{"x": 1}]`,
`compute_robust_baseline` returns an entry whose mad is exactly 0 (the
fewer-than-3-values floor), refuting "every entry has a mad value that is
not exactly zero". -/
theorem C2_counterexample :
    ∃ p ∈ compute_robust_baseline (fun _ => 0) [[("x", 1)]] 30, p.2.mad = 0 := by
  have h : compute_robust_baseline (fun _ => 0) [[("x", 1)]] 30
      = [("x", ⟨1, 0⟩)] := by
    norm_num +decide [compute_robust_baseline, featureValues, addValue,
      baselineEntryOf, npMedian, npSort, List.insertionSort]
  rw [h]
  exact ⟨("x", ⟨1, 0⟩), List.mem_singleton_self _, rfl⟩

/-- C2 (amended): every entry of the baseline comes from the collected value
list of its key, and its mad is exactly 0 if and only if that feature has
fewer than 3 observed values in the window. -/
theorem C2_mad_zero_iff_fewer_than_three (sq : ℚ → ℚ)
    (history : List (List (String × ℚ))) (window : ℕ)
    (p : String × BaselineEntry)
    (hp : p ∈ compute_robust_baseline sq history window) :
    ∃ vs, (p.1, vs) ∈ featureValues (history.take window) ∧
      p.2 = baselineEntryOf sq vs ∧ (p.2.mad = 0 ↔ vs.length < 3) := by
  unfold compute_robust_baseline at hp
  by_cases hh : history = []
  · rw [if_pos hh] at hp
    cases hp
  · rw [if_neg hh] at hp
    obtain ⟨q, hq, hpe⟩ := List.mem_map.1 hp
    subst hpe
    exact ⟨q.2, by simpa using hq, rfl, baselineEntryOf_mad_eq_zero_iff sq q.2⟩

/-- C2 (witness): the amended theorem applied to the three-session history
`[{"x":1},{"x":2},{"x":3}]`, whose `x` entry is `{median 2, mad 1}`. -/
theorem C2_witness :
    ∃ vs, ("x", vs) ∈ featureValues ([[("x", 1)], [("x", 2)], [("x", 3)]].take 30) ∧
      (⟨2, 1⟩ : BaselineEntry) = baselineEntryOf (fun _ => 0) vs ∧
      ((⟨2, 1⟩ : BaselineEntry).mad = 0 ↔ vs.length < 3) := by
  have h : compute_robust_baseline (fun _ => 0)
      [[("x", 1)], [("x", 2)], [("x", 3)]] 30 = [("x", ⟨2, 1⟩)] := by
    norm_num +decide [compute_robust_baseline, featureValues, addValue,
      baselineEntryOf, npMedian, npSort, List.insertionSort, List.orderedInsert,
      madFloor]
  exact C2_mad_zero_iff_fewer_than_three (fun _ => 0)
    [[("x", 1)], [("x", 2)], [("x", 3)]] 30 ("x", ⟨2, 1⟩)
    (h ▸ List.mem_singleton_self _)

/-! ## Claim C5 -/

/-- C5 (counterexample): with baseline entry `{"x": {median 0, mad -1}}` the
key exists with nonzero mad, yet `compute_z_scores` emits 0.0 rather than
`(10 - 0) / (-1) = -10`, because the source tests `mad > 0`, not
`mad != 0`. -/
theorem C5_counterexample :
    (compute_z_scores [("x", 10)] [("x", ⟨0, -1⟩)]).lookup "x" = some 0 ∧
      (-1 : ℚ) ≠ 0 ∧ ((10 : ℚ) - 0) / (-1) ≠ 0 := by
  refine ⟨?_, by norm_num, by norm_num⟩
  norm_num +decide [compute_z_scores, List.lookup]

/-- C5 (amended): for each key of the current vector, the emitted z-score is
`(value - median) / mad` when the key exists in the baseline with positive
mad, and 0.0 otherwise (key absent, or mad not positive); key set is
preserved, and the spec fixture evaluates to `{"x": 7.0}`. -/
theorem C5_z_scores (features : List (String × ℚ))
    (baseline : List (String × BaselineEntry))
    (hnd : (features.map Prod.fst).Nodup) :
    ((compute_z_scores features baseline).map Prod.fst = features.map Prod.fst) ∧
    (∀ k v, (k, v) ∈ features →
      (baseline.lookup k = none →
        (compute_z_scores features baseline).lookup k = some 0) ∧
      (∀ e, baseline.lookup k = some e → 0 < e.mad →
        (compute_z_scores features baseline).lookup k =
          some ((v - e.median) / e.mad)) ∧
      (∀ e, baseline.lookup k = some e → ¬ 0 < e.mad →
        (compute_z_scores features baseline).lookup k = some 0)) ∧
    compute_z_scores [("x", 10)] [("x", ⟨3, 1⟩)] = [("x", 7)] := by
  refine ⟨?_, ?_, ?_⟩
  · unfold compute_z_scores
    rw [List.map_map]
    rfl
  · intro k v hmem
    have hbase := lookup_map_assoc features
      (fun p => (match baseline.lookup p.1 with
        | none => (0 : ℚ)
        | some e => if 0 < e.mad then (p.2 - e.median) / e.mad else 0))
      k v hmem hnd
    refine ⟨?_, ?_, ?_⟩
    · intro hb
      rw [show compute_z_scores features baseline =
        features.map (fun p => (p.1, match baseline.lookup p.1 with
          | none => (0 : ℚ)
          | some e => if 0 < e.mad then (p.2 - e.median) / e.mad else 0))
        from rfl, hbase]
      simp [hb]
    · intro e hb hpos
      rw [show compute_z_scores features baseline =
        features.map (fun p => (p.1, match baseline.lookup p.1 with
          | none => (0 : ℚ)
          | some e => if 0 < e.mad then (p.2 - e.median) / e.mad else 0))
        from rfl, hbase]
      simp [hb, hpos]
    · intro e hb hneg
      rw [show compute_z_scores features baseline =
        features.map (fun p => (p.1, match baseline.lookup p.1 with
          | none => (0 : ℚ)
          | some e => if 0 < e.mad then (p.2 - e.median) / e.mad else 0))
        from rfl, hbase]
      simp [hb, hneg]
  · norm_num +decide [compute_z_scores, List.lookup]

/-- C5 (witness): the amended theorem applied to the current vector
`{"a": 5, "b": 2}` and baseline `{"a": {median 1, mad 2}}`, giving
`z("a") = (5 - 1) / 2 = 2`. -/
theorem C5_witness :
    (compute_z_scores [("a", 5), ("b", 2)] [("a", ⟨1, 2⟩)]).lookup "a"
      = some 2 := by
  have h := ((C5_z_scores [("a", 5), ("b", 2)] [("a", ⟨1, 2⟩)]
    (by decide)).2.1 "a" 5 (by decide)).2.1 ⟨1, 2⟩ (by decide) (by norm_num)
  rw [h]
  norm_num

/-! ## Claim C6 -/

/-- C6: the anomaly score of an empty z-map is 0.0, and for a 5-element
z-map with trim 0.2 the score is the average of the middle 3 of the sorted
absolute z-scores — exactly the single lowest and single highest are
discarded. -/
theorem C6_anomaly_score_trimmed_mean :
    compute_anomaly_score [] (1/5) = 0 ∧
    ∀ zmap : List (String × ℚ), zmap.length = 5 →
      ∃ s : List ℚ, (zmap.map fun p => |p.2|).Perm s ∧ s.Sorted (· ≤ ·) ∧
        compute_anomaly_score zmap (1/5) = ((s.drop 1).take 3).sum / 3 := by
  constructor
  · rfl
  · intro zmap h5
    have hne : zmap ≠ [] := by
      intro h
      rw [h] at h5
      cases h5
    have hlen : (zmap.map fun p => |p.2|).length = 5 := by
      rw [List.length_map, h5]
    refine ⟨npSort (zmap.map fun p => |p.2|), ?_, ?_, ?_⟩
    · exact (List.perm_insertionSort _ _).symm
    · exact List.sorted_insertionSort _ _
    · unfold compute_anomaly_score
      rw [if_neg hne]
      simp only [trimMean, hlen]
      have hcut : (pyTrunc ((1:ℚ)/5 * ((5:ℕ):ℚ))).toNat = 1 := by
        norm_num [pyTrunc]
      rw [hcut]
      have hslen : (((npSort (zmap.map fun p => |p.2|)).drop 1).take (5 - 1 - 1)).length = 3 := by
        rw [List.length_take, List.length_drop]
        unfold npSort
        rw [List.length_insertionSort, hlen]
        rfl
      unfold npMean
      rw [hslen]
      norm_num

/-- C6 (witness): the theorem applied to the spec fixture
`{"a":1,...,"e":5}`, whose score averages `{2, 3, 4}`. -/
theorem C6_witness :
    ∃ s : List ℚ,
      (([("a",1),("b",2),("c",3),("d",4),("e",5)] :
        List (String × ℚ)).map fun p => |p.2|).Perm s ∧
      s.Sorted (· ≤ ·) ∧
      compute_anomaly_score [("a",1),("b",2),("c",3),("d",4),("e",5)] (1/5)
        = ((s.drop 1).take 3).sum / 3 :=
  C6_anomaly_score_trimmed_mean.2 [("a",1),("b",2),("c",3),("d",4),("e",5)] (by decide)

/-! ## Claim C10 -/

/-- A sentence prefixed `"Top signals: "` is never the no-deviation
sentence: the first characters differ. -/
theorem topSignals_ne_noSig (r : String) :
    "Top signals: " ++ r ≠ "No significant deviations detected." := by
  intro h
  have hd : ("Top signals: " ++ r).data
      = "No significant deviations detected.".data := congrArg String.data h
  rw [String.data_append] at hd
  have h1 : ("Top signals: ".data ++ r.data).head? = some 'T' := by
    rw [show "Top signals: ".data = 'T' :: "op signals: ".data from rfl]
    rfl
  rw [hd] at h1
  have h2 : "No significant deviations detected.".data.head? = some 'N' := rfl
  rw [h2] at h1
  cases h1

/-- C10: `generate_interpretation_text` returns the no-deviation sentence
exactly on the empty ranked list; any non-empty list — zero z-scores
included — produces a sentence beginning `"Top signals: "`; the direction
word is `"higher"` exactly for positive z, so z = 0 is phrased
`"lower"`. -/
theorem C10_interpretation_text :
    (∀ top : List (String × ℚ),
      (generate_interpretation_text top = "No significant deviations detected."
        ↔ top = [])) ∧
    (∀ top : List (String × ℚ), top ≠ [] →
      ∃ rest, generate_interpretation_text top = "Top signals: " ++ rest) ∧
    (∀ f : String, ∀ z : ℚ,
      generate_interpretation_text [(f, z)] =
        "Top signals: " ++
          (directionWord z ++ " " ++ ((descriptions.lookup f).getD f))) ∧
    (∀ z : ℚ, directionWord z = "higher" ↔ 0 < z) ∧
    directionWord 0 = "lower" := by
  refine ⟨?_, ?_, ?_, ?_, ?_⟩
  · intro top
    constructor
    · intro h
      by_contra hne
      unfold generate_interpretation_text at h
      rw [if_neg hne] at h
      exact topSignals_ne_noSig _ h
    · intro h
      rw [h]
      rfl
  · intro top hne
    unfold generate_interpretation_text
    rw [if_neg hne]
    exact ⟨_, rfl⟩
  · intro f z
    rfl
  · intro z
    unfold directionWord
    by_cases hz : 0 < z
    · simp [hz]
    · rw [if_neg hz]
      simp only [hz, iff_false]
      intro h
      have hd : "lower".data = "higher".data := congrArg String.data h
      cases hd
  · rfl

/-- C10 (witness): the empty list gives the no-deviation sentence, and a
one-element list with z = 0 gives a `"Top signals: "` sentence. -/
theorem C10_witness :
    generate_interpretation_text ([] : List (String × ℚ))
      = "No significant deviations detected." ∧
    ∃ rest, generate_interpretation_text [("geom.total_length", 0)]
      = "Top signals: " ++ rest :=
  ⟨(C10_interpretation_text.1 []).2 rfl,
   C10_interpretation_text.2.1 [("geom.total_length", 0)] (by decide)⟩

/-! ## Claim C3 -/

/-- C3: a drawing with an empty (or absent) strokes list extracts to exactly
the documented default vector: centroids 0.5, vertical symmetry 1.0, mean
pressure 1.0, palette size 1, mean opacity 1.0 and 0 for every other
vocabulary key. -/
theorem C3_empty_drawing_defaults (sq ac lg : ℚ → ℚ) (w h : Option ℚ) :
    extract_features sq ac lg ⟨none, w, h⟩ = some get_empty_features ∧
    extract_features sq ac lg ⟨some [], w, h⟩ = some get_empty_features ∧
    get_empty_features.lookup "comp.centroid_x" = some (1/2) ∧
    get_empty_features.lookup "comp.centroid_y" = some (1/2) ∧
    get_empty_features.lookup "comp.vertical_symmetry" = some 1 ∧
    get_empty_features.lookup "geom.mean_pressure" = some 1 ∧
    get_empty_features.lookup "color.palette_size" = some 1 ∧
    get_empty_features.lookup "color.mean_opacity" = some 1 ∧
    (∀ k ∈ vocabKeys,
      k ∉ (["comp.centroid_x", "comp.centroid_y", "comp.vertical_symmetry",
            "geom.mean_pressure", "color.palette_size",
            "color.mean_opacity"] : List String) →
      get_empty_features.lookup k = some 0) :=
  ⟨rfl, rfl, rfl, rfl, rfl, rfl, rfl, rfl, by decide⟩

/-- C3 (witness): the per-key clause applied at `geom.total_length`. -/
theorem C3_witness :
    get_empty_features.lookup "geom.total_length" = some 0 :=
  (C3_empty_drawing_defaults (fun _ => 0) (fun _ => 0) (fun _ => 0)
    none none).2.2.2.2.2.2.2.2 "geom.total_length" (by decide) (by decide)

/-! ## Claim C4 -/

/-- The color pass fails exactly when some stroke's color starts with `#`
and its three slices do not parse as hex. -/
theorem collectColors_eq_none_iff (strokes : List Stroke) :
    collectColors strokes = none ↔
      ∃ s ∈ strokes, startsWithHash (s.color.getD "#000000") = true ∧
        parseColor (s.color.getD "#000000") = none := by
  induction strokes with
  | nil => simp [collectColors]
  | cons a l ih =>
    rw [show collectColors (a :: l) =
      (if startsWithHash (a.color.getD "#000000") then
        match parseColor (a.color.getD "#000000") with
        | none => none
        | some rgb => (collectColors l).map (fun pr =>
            (rgb_to_hsv rgb.1 rgb.2.1 rgb.2.2 :: pr.1, (a.opacity.getD 1) :: pr.2))
       else (collectColors l).map (fun pr => (pr.1, (a.opacity.getD 1) :: pr.2)))
      from rfl]
    by_cases hh : startsWithHash (a.color.getD "#000000") = true
    · rw [if_pos hh]
      cases hp : parseColor (a.color.getD "#000000") with
      | none =>
        exact iff_of_true rfl ⟨a, List.mem_cons_self a l, hh, hp⟩
      | some rgb =>
        rw [show ((collectColors l).map (fun pr =>
            (rgb_to_hsv rgb.1 rgb.2.1 rgb.2.2 :: pr.1, (a.opacity.getD 1) :: pr.2))
              = none) ↔ collectColors l = none from Option.map_eq_none]
        rw [ih]
        constructor
        · intro ⟨s, hs, hsw, hsp⟩
          exact ⟨s, List.mem_cons_of_mem a hs, hsw, hsp⟩
        · intro ⟨s, hs, hsw, hsp⟩
          rcases List.mem_cons.1 hs with rfl | hs'
          · rw [hp] at hsp
            cases hsp
          · exact ⟨s, hs', hsw, hsp⟩
    · rw [if_neg hh]
      rw [show ((collectColors l).map (fun pr =>
          (pr.1, (a.opacity.getD 1) :: pr.2)) = none)
            ↔ collectColors l = none from Option.map_eq_none]
      rw [ih]
      constructor
      · intro ⟨s, hs, hsw, hsp⟩
        exact ⟨s, List.mem_cons_of_mem a hs, hsw, hsp⟩
      · intro ⟨s, hs, hsw, hsp⟩
        rcases List.mem_cons.1 hs with rfl | hs'
        · exact absurd hsw hh
        · exact ⟨s, hs', hsw, hsp⟩

/-- The signed slice accepted by Python `int`: `int("+1", 16)` is `1`, so
the malformed-looking color `"#+1FF00"` parses to channels `1/255, 1, 0`. -/
theorem parseColor_signed_slice :
    parseColor "#+1FF00" = some (1/255, 1, 0) := by
  norm_num +decide [parseColor, parseHexSlice, bind, Option.some_bind,
    (by decide : pyIntHex ['+', '1'] = some 1),
    (by decide : pyIntHex ['F', 'F'] = some 255),
    (by decide : pyIntHex ['0', '0'] = some 0)]

/-- A far-negative coordinate fails extraction even though every color is
valid: the clamped grid index of `x = -1000` on an 800-wide canvas is -12,
outside numpy's accepted range. -/
theorem extract_features_far_negative_point_fails :
    extract_features (fun _ => 0) (fun _ => 0) (fun _ => 0)
      ⟨some [⟨some [⟨-1000, 0, 0, none⟩], some "#FF0000", none, none, none⟩],
        none, none⟩ = none := by
  unfold extract_features
  rw [if_neg (by decide)]
  have hcomp : extract_composition_features (fun _ => 0)
      ((Drawing.mk (some [⟨some [⟨-1000, 0, 0, none⟩], some "#FF0000", none,
        none, none⟩]) none none).strokes.getD [])
      ((Drawing.mk (some [⟨some [⟨-1000, 0, 0, none⟩], some "#FF0000", none,
        none, none⟩]) none none).canvas_w.getD 800)
      ((Drawing.mk (some [⟨some [⟨-1000, 0, 0, none⟩], some "#FF0000", none,
        none, none⟩]) none none).canvas_h.getD 600) = none := by
    rw [comp_eq_none_iff]
    refine ⟨(-1000, 0), by decide, Or.inl ?_⟩
    norm_num [gridIndex, pyTrunc, min_def]
  rw [hcomp]
  rfl

/-- The key list of a successful composition pass: empty when no stroke has
a point, the five `comp.*` keys otherwise. -/
theorem comp_keys (lg : ℚ → ℚ) (strokes : List Stroke) (w h : ℚ)
    (cf : List (String × ℚ))
    (hcomp : extract_composition_features lg strokes w h = some cf) :
    cf.map Prod.fst =
      if allPointsOf strokes = []
      then []
      else ["comp.centroid_x", "comp.centroid_y", "comp.spatial_entropy",
        "comp.thirds_occupied", "comp.vertical_symmetry"] := by
  unfold extract_composition_features at hcomp
  by_cases hap : allPointsOf strokes = []
  · rw [if_pos hap] at hcomp
    cases Option.some.inj hcomp
    simp [hap]
  · rw [if_neg hap] at hcomp
    by_cases hg : ∃ p ∈ allPointsOf strokes,
        gridIndex w p.1 < -10 ∨ gridIndex h p.2 < -10
    · rw [if_pos hg] at hcomp
      cases hcomp
    · rw [if_neg hg] at hcomp
      by_cases ht : ∃ p ∈ allPointsOf strokes,
          thirdsIndex w p.1 < -3 ∨ thirdsIndex h p.2 < -3
      · rw [if_pos ht] at hcomp
        cases hcomp
      · rw [if_neg ht] at hcomp
        cases Option.some.inj hcomp
        simp [hap]

/-- C1 (amended): whenever extraction succeeds on a non-empty strokes list,
the key list is the full 26-key vocabulary if some stroke has at least one
point, and the 21 keys without the `comp.*` block if every stroke has an
empty points list. -/
theorem C1_vocabulary_keys (sq ac lg : ℚ → ℚ) (d : Drawing)
    (fs : List (String × ℚ))
    (he : extract_features sq ac lg d = some fs)
    (hne : d.strokes.getD [] ≠ []) :
    fs.map Prod.fst =
      if ∃ s ∈ d.strokes.getD [], strokePts s ≠ [] then vocabKeys
      else vocabKeys.drop 5 := by
  unfold extract_features at he
  rw [if_neg hne] at he
  cases hcomp : extract_composition_features lg (d.strokes.getD [])
      (d.canvas_w.getD 800) (d.canvas_h.getD 600) with
  | none =>
    rw [hcomp] at he
    cases he
  | some cf =>
    rw [hcomp] at he
    unfold extract_color_features at he
    cases hc : collectColors (d.strokes.getD []) with
    | none =>
      rw [hc] at he
      cases he
    | some pr =>
      rw [hc] at he
      have hfs := Option.some.inj he
      rw [← hfs, List.map_append, List.map_append, List.map_append,
        comp_keys lg (d.strokes.getD []) (d.canvas_w.getD 800)
          (d.canvas_h.getD 600) cf hcomp]
      have hgeom : (extract_geometry_features sq ac (d.strokes.getD [])).map
          Prod.fst =
        ["geom.total_length", "geom.mean_stroke_length", "geom.std_stroke_length",
         "geom.mean_curvature", "geom.max_curvature", "geom.high_curvature_pct",
         "geom.mean_velocity", "geom.std_velocity", "geom.mean_pressure",
         "geom.std_pressure", "geom.pen_lift_rate"] := rfl
      have hcolor : ((fun pr => colorFeatureList sq pr.1 pr.2) pr).map Prod.fst =
        ["color.palette_size", "color.hue_variance", "color.mean_saturation",
         "color.mean_value", "color.warm_proportion", "color.mean_opacity",
         "color.std_opacity"] := rfl
      have hlayer : (extract_layering_features sq (d.strokes.getD [])).map
          Prod.fst = ["layer.mean", "layer.std", "layer.eraser_ratio"] := rfl
      rw [hgeom, hcolor, hlayer]
      by_cases hp : ∃ s ∈ d.strokes.getD [], strokePts s ≠ []
      · rw [if_pos hp]
        have hap : allPointsOf (d.strokes.getD []) ≠ [] := by
          intro hnil
          obtain ⟨s, hs, hpts⟩ := hp
          exact hpts (List.map_eq_nil_iff.1 (List.flatMap_eq_nil_iff.1 hnil s hs))
        rw [if_neg hap]
        decide
      · rw [if_neg hp]
        push_neg at hp
        have hap : allPointsOf (d.strokes.getD []) = [] := by
          unfold allPointsOf
          rw [List.flatMap_eq_nil_iff]
          intro s hs
          rw [hp s hs]
          rfl
        rw [if_pos hap]
        decide

/-- Slice evaluations of Python `int(s, 16)` used by the concrete color
fixtures. -/
theorem pyIntHex_00 : pyIntHex ['0', '0'] = some 0 := by decide

theorem pyIntHex_01 : pyIntHex ['0', '1'] = some 1 := by decide

theorem pyIntHex_80 : pyIntHex ['8', '0'] = some 128 := by decide

theorem pyIntHex_FF : pyIntHex ['F', 'F'] = some 255 := by decide

/-- The default color `#000000` parses to black. -/
theorem parseColor_black : parseColor "#000000" = some (0, 0, 0) := by
  norm_num +decide [parseColor, parseHexSlice, pyIntHex_00, bind,
    Option.some_bind]

/-- When the strokes list is non-empty and both the composition and the
color pass succeed, `extract_features` is the four category lists appended
in update order. -/
theorem extract_features_eq (sq ac lg : ℚ → ℚ) (d : Drawing)
    (cf : List (String × ℚ)) (pr : List (ℚ × ℚ × ℚ) × List ℚ)
    (hne : d.strokes.getD [] ≠ [])
    (hcomp : extract_composition_features lg (d.strokes.getD [])
      (d.canvas_w.getD 800) (d.canvas_h.getD 600) = some cf)
    (hc : collectColors (d.strokes.getD []) = some pr) :
    extract_features sq ac lg d = some
      (cf
        ++ extract_geometry_features sq ac (d.strokes.getD [])
        ++ colorFeatureList sq pr.1 pr.2
        ++ extract_layering_features sq (d.strokes.getD [])) := by
  unfold extract_features extract_color_features
  rw [if_neg hne, hcomp, hc]
  rfl

/-- C1 (counterexample): a drawing with one stroke whose points list is
empty extracts successfully, but the key set is missing the `comp.*` block
("comp.centroid_x" is in the vocabulary yet absent from the result). -/
theorem C1_counterexample :
    ∃ fs, extract_features (fun _ => 0) (fun _ => 0) (fun _ => 0)
        ⟨some [⟨some [], none, none, none, none⟩], none, none⟩ = some fs ∧
      "comp.centroid_x" ∈ vocabKeys ∧ "comp.centroid_x" ∉ fs.map Prod.fst := by
  have hc : collectColors ((Drawing.mk
      (some [⟨some [], none, none, none, none⟩]) none none).strokes.getD [])
      = some ([((0:ℚ), (0:ℚ), (0:ℚ))], [(1:ℚ)]) := by
    norm_num +decide [collectColors, startsWithHash, parseColor_black,
      rgb_to_hsv, pyMod6]
  have hcomp : extract_composition_features (fun _ => 0) ((Drawing.mk
      (some [⟨some [], none, none, none, none⟩]) none none).strokes.getD [])
      ((Drawing.mk (some [⟨some [], none, none, none, none⟩]) none
        none).canvas_w.getD 800)
      ((Drawing.mk (some [⟨some [], none, none, none, none⟩]) none
        none).canvas_h.getD 600) = some [] := by decide
  have he := extract_features_eq (fun _ => 0) (fun _ => 0) (fun _ => 0)
    ⟨some [⟨some [], none, none, none, none⟩], none, none⟩ [] _ (by decide)
    hcomp hc
  exact ⟨_, he, by decide, by decide⟩

/-- C1 (witness): a drawing with one stroke holding one point extracts to
exactly the 26-key vocabulary. -/
theorem C1_witness :
    ∃ fs, extract_features (fun _ => 0) (fun _ => 0) (fun _ => 0)
        ⟨some [⟨some [⟨0, 0, 0, none⟩], none, none, none, none⟩], none, none⟩
        = some fs ∧ fs.map Prod.fst = vocabKeys := by
  have hc : collectColors ((Drawing.mk
      (some [⟨some [⟨0, 0, 0, none⟩], none, none, none, none⟩]) none
      none).strokes.getD [])
      = some ([((0:ℚ), (0:ℚ), (0:ℚ))], [(1:ℚ)]) := by
    norm_num +decide [collectColors, startsWithHash, parseColor_black,
      rgb_to_hsv, pyMod6]
  obtain ⟨cf, hcomp⟩ := comp_isSome_of_inBounds (fun _ => 0)
    ((Drawing.mk (some [⟨some [⟨0, 0, 0, none⟩], none, none, none, none⟩])
      none none).strokes.getD [])
    ((Drawing.mk (some [⟨some [⟨0, 0, 0, none⟩], none, none, none, none⟩])
      none none).canvas_w.getD 800)
    ((Drawing.mk (some [⟨some [⟨0, 0, 0, none⟩], none, none, none, none⟩])
      none none).canvas_h.getD 600)
    (by
      intro p hp
      have hpe : p = ((0 : ℚ), (0 : ℚ)) := by
        simpa [allPointsOf, strokePts] using hp
      subst hpe
      refine ⟨?_, ?_, ?_, ?_⟩ <;>
        norm_num [gridIndex, thirdsIndex, pyTrunc, min_def])
  have he := extract_features_eq (fun _ => 0) (fun _ => 0) (fun _ => 0)
    ⟨some [⟨some [⟨0, 0, 0, none⟩], none, none, none, none⟩], none, none⟩ cf _
    (by decide) hcomp hc
  refine ⟨_, he, ?_⟩
  have hk := C1_vocabulary_keys (fun _ => 0) (fun _ => 0) (fun _ => 0) _ _ he
    (by decide)
  rw [hk, if_pos (show ∃ s ∈ (Drawing.mk
    (some [⟨some [⟨0, 0, 0, none⟩], none, none, none, none⟩]) none
    none).strokes.getD [], strokePts s ≠ [] by decide)]


/-! ## Claim C7 -/

/-- A successful composition dict is either empty (no points anywhere) or
the five `comp.*` pairs in emission order. -/
theorem comp_shape (lg : ℚ → ℚ) (strokes : List Stroke) (w h : ℚ)
    (cf : List (String × ℚ))
    (hcomp : extract_composition_features lg strokes w h = some cf) :
    cf = [] ∨
    cf =
      [("comp.centroid_x", (((allPointsOf strokes).map (fun p => p.1)).sum
          / ((allPointsOf strokes).length : ℚ)) / w),
       ("comp.centroid_y", (((allPointsOf strokes).map (fun p => p.2)).sum
          / ((allPointsOf strokes).length : ℚ)) / h),
       ("comp.spatial_entropy", spatialEntropy lg (allPointsOf strokes) w h),
       ("comp.thirds_occupied", thirdsOccupied (allPointsOf strokes) w h),
       ("comp.vertical_symmetry", verticalSymmetry (allPointsOf strokes) w)] := by
  unfold extract_composition_features at hcomp
  by_cases hap : allPointsOf strokes = []
  · rw [if_pos hap] at hcomp
    exact Or.inl (Option.some.inj hcomp).symm
  · rw [if_neg hap] at hcomp
    by_cases hg : ∃ p ∈ allPointsOf strokes,
        gridIndex w p.1 < -10 ∨ gridIndex h p.2 < -10
    · rw [if_pos hg] at hcomp
      cases hcomp
    · rw [if_neg hg] at hcomp
      by_cases ht : ∃ p ∈ allPointsOf strokes,
          thirdsIndex w p.1 < -3 ∨ thirdsIndex h p.2 < -3
      · rw [if_pos ht] at hcomp
        cases hcomp
      · rw [if_neg ht] at hcomp
        exact Or.inr (Option.some.inj hcomp).symm

/-- C7 (amended): the emitted pen-lift rate divides the full stroke count by
`totalTime/1000`, where `totalTime` is the running maximum of the *last*
point's timestamp over the strokes with at least 2 points only — a stroke
with fewer than 2 points counts toward the stroke count but never changes
the duration — and the rate is 0 when that time is not positive. -/
theorem C7_pen_lift_rate (sq ac lg : ℚ → ℚ) (d : Drawing)
    (fs : List (String × ℚ))
    (he : extract_features sq ac lg d = some fs)
    (hne : d.strokes.getD [] ≠ []) :
    fs.lookup "geom.pen_lift_rate" =
      some (if 0 < totalTime (d.strokes.getD [])
        then ((d.strokes.getD []).length : ℚ) / (totalTime (d.strokes.getD []) / 1000)
        else 0) ∧
    (∀ s : Stroke, (strokePts s).length < 2 →
      totalTime (d.strokes.getD [] ++ [s]) = totalTime (d.strokes.getD [])) := by
  constructor
  · unfold extract_features at he
    rw [if_neg hne] at he
    cases hcomp : extract_composition_features lg (d.strokes.getD [])
        (d.canvas_w.getD 800) (d.canvas_h.getD 600) with
    | none =>
      rw [hcomp] at he
      cases he
    | some cf =>
      rw [hcomp] at he
      unfold extract_color_features at he
      cases hc : collectColors (d.strokes.getD []) with
      | none =>
        rw [hc] at he
        cases he
      | some pr =>
        rw [hc] at he
        have hfs := Option.some.inj he
        rw [← hfs]
        rcases comp_shape lg (d.strokes.getD []) (d.canvas_w.getD 800)
          (d.canvas_h.getD 600) cf hcomp with hcf | hcf <;>
          rw [hcf] <;>
          simp [extract_geometry_features, List.lookup]
  · intro s hs
    unfold totalTime validStrokes
    rw [List.filter_append]
    have hd : decide (2 ≤ (strokePts s).length) = false := by
      simp only [decide_eq_false_iff_not]
      omega
    have h1 : List.filter (fun s => decide (2 ≤ (strokePts s).length)) [s] = [] := by
      simp only [List.filter, hd]
    rw [h1, List.append_nil]



/-- C7 (counterexample): on the fixture the code reports rate 2 (duration
1 s, ignoring the 1-point stroke), while the claim's duration — maximum
timestamp across all points, 1-point strokes included — is 2 s, rate 1. -/
theorem C7_counterexample :
    ∃ fs, extract_features (fun _ => 0) (fun _ => 0) (fun _ => 0) drawingC7
      = some fs ∧
    fs.lookup "geom.pen_lift_rate" = some 2 ∧
    claimPenLiftRate strokesC7 = 1 ∧
    (2 : ℚ) ≠ 1 := by
  have hc : collectColors (drawingC7.strokes.getD [])
      = some ([((0:ℚ), (0:ℚ), (0:ℚ)), ((0:ℚ), (0:ℚ), (0:ℚ))], [(1:ℚ), (1:ℚ)]) := by
    norm_num +decide [collectColors, startsWithHash, parseColor_black,
      rgb_to_hsv, pyMod6, drawingC7, strokesC7]
  obtain ⟨cf, hcomp⟩ := comp_isSome_of_inBounds (fun _ => 0)
    (drawingC7.strokes.getD []) (drawingC7.canvas_w.getD 800)
    (drawingC7.canvas_h.getD 600) (by
      intro p hp
      have hps : allPointsOf (drawingC7.strokes.getD [])
          = [((0:ℚ), (0:ℚ)), (1, 0), (0, 0)] := rfl
      rw [hps] at hp
      fin_cases hp <;>
        exact inBounds_of_nonneg _ _ (by norm_num [drawingC7])
          (by norm_num [drawingC7]) _ (by norm_num) (by norm_num))
  have he := extract_features_eq (fun _ => 0) (fun _ => 0) (fun _ => 0)
    drawingC7 cf _ (by decide) hcomp hc
  refine ⟨_, he, ?_, ?_, by norm_num⟩
  · rcases comp_shape (fun _ => 0) (drawingC7.strokes.getD [])
      (drawingC7.canvas_w.getD 800) (drawingC7.canvas_h.getD 600) cf hcomp with
      hcf | hcf <;>
      rw [hcf] <;>
      simp [extract_geometry_features, List.lookup] <;>
      norm_num +decide [totalTime, validStrokes, strokePts, drawingC7, strokesC7]
  · norm_num +decide [claimPenLiftRate, maxTimestampAll, strokePts, strokesC7]

/-- C7 (witness): the amended theorem applied to the fixture drawing. -/
theorem C7_witness :
    ∃ fs, extract_features (fun _ => 0) (fun _ => 0) (fun _ => 0) drawingC7
        = some fs ∧
      fs.lookup "geom.pen_lift_rate" =
        some (if 0 < totalTime (drawingC7.strokes.getD [])
          then ((drawingC7.strokes.getD []).length : ℚ)
            / (totalTime (drawingC7.strokes.getD []) / 1000)
          else 0) := by
  have hc : collectColors (drawingC7.strokes.getD [])
      = some ([((0:ℚ), (0:ℚ), (0:ℚ)), ((0:ℚ), (0:ℚ), (0:ℚ))], [(1:ℚ), (1:ℚ)]) := by
    norm_num +decide [collectColors, startsWithHash, parseColor_black,
      rgb_to_hsv, pyMod6, drawingC7, strokesC7]
  obtain ⟨cf, hcomp⟩ := comp_isSome_of_inBounds (fun _ => 0)
    (drawingC7.strokes.getD []) (drawingC7.canvas_w.getD 800)
    (drawingC7.canvas_h.getD 600) (by
      intro p hp
      have hps : allPointsOf (drawingC7.strokes.getD [])
          = [((0:ℚ), (0:ℚ)), (1, 0), (0, 0)] := rfl
      rw [hps] at hp
      fin_cases hp <;>
        exact inBounds_of_nonneg _ _ (by norm_num [drawingC7])
          (by norm_num [drawingC7]) _ (by norm_num) (by norm_num))
  have he := extract_features_eq (fun _ => 0) (fun _ => 0) (fun _ => 0)
    drawingC7 cf _ (by decide) hcomp hc
  exact ⟨_, he, (C7_pen_lift_rate (fun _ => 0) (fun _ => 0) (fun _ => 0)
    drawingC7 _ he (by decide)).1⟩

/-! ## Claim C8 -/

/-- C8 (amended): the emitted pressure statistics are the mean and
(abstract-sqrt) population standard deviation of `pressuresOf` — the
pressure values of points belonging to strokes with at least 2 points only;
points of skipped 1-point strokes contribute nothing — with defaults
mean 1.0 / stddev 0 when that list is empty, and a 1-point stroke appended
to the drawing never changes the collected pressure list. -/
theorem C8_pressure_stats (sq ac lg : ℚ → ℚ) (d : Drawing)
    (fs : List (String × ℚ))
    (he : extract_features sq ac lg d = some fs)
    (hne : d.strokes.getD [] ≠ []) :
    fs.lookup "geom.mean_pressure" =
      some (if pressuresOf (d.strokes.getD []) = [] then 1
        else npMean (pressuresOf (d.strokes.getD []))) ∧
    fs.lookup "geom.std_pressure" =
      some (if pressuresOf (d.strokes.getD []) = [] then 0
        else npStd sq (pressuresOf (d.strokes.getD []))) ∧
    (∀ s : Stroke, (strokePts s).length < 2 →
      pressuresOf (d.strokes.getD [] ++ [s]) = pressuresOf (d.strokes.getD [])) := by
  refine ⟨?_, ?_, ?_⟩
  · unfold extract_features at he
    rw [if_neg hne] at he
    cases hcomp : extract_composition_features lg (d.strokes.getD [])
        (d.canvas_w.getD 800) (d.canvas_h.getD 600) with
    | none =>
      rw [hcomp] at he
      cases he
    | some cf =>
      rw [hcomp] at he
      unfold extract_color_features at he
      cases hc : collectColors (d.strokes.getD []) with
      | none =>
        rw [hc] at he
        cases he
      | some pr =>
        rw [hc] at he
        have hfs := Option.some.inj he
        rw [← hfs]
        rcases comp_shape lg (d.strokes.getD []) (d.canvas_w.getD 800)
          (d.canvas_h.getD 600) cf hcomp with hcf | hcf <;>
          rw [hcf] <;>
          simp [extract_geometry_features, List.lookup]
  · unfold extract_features at he
    rw [if_neg hne] at he
    cases hcomp : extract_composition_features lg (d.strokes.getD [])
        (d.canvas_w.getD 800) (d.canvas_h.getD 600) with
    | none =>
      rw [hcomp] at he
      cases he
    | some cf =>
      rw [hcomp] at he
      unfold extract_color_features at he
      cases hc : collectColors (d.strokes.getD []) with
      | none =>
        rw [hc] at he
        cases he
      | some pr =>
        rw [hc] at he
        have hfs := Option.some.inj he
        rw [← hfs]
        rcases comp_shape lg (d.strokes.getD []) (d.canvas_w.getD 800)
          (d.canvas_h.getD 600) cf hcomp with hcf | hcf <;>
          rw [hcf] <;>
          simp [extract_geometry_features, List.lookup]
  · intro s hs
    unfold pressuresOf validStrokes
    rw [List.filter_append]
    have hd : decide (2 ≤ (strokePts s).length) = false := by
      simp only [decide_eq_false_iff_not]
      omega
    have h1 : List.filter (fun s => decide (2 ≤ (strokePts s).length)) [s] = [] := by
      simp only [List.filter, hd]
    rw [h1, List.append_nil]



/-- C8 (counterexample): on the fixture the only pressure-carrying point
belongs to a 1-point stroke, which the geometry loop skips, so the code
reports the default mean 1.0 — while the claim's mean over all
pressure-carrying points is 0.5. -/
theorem C8_counterexample :
    ∃ fs, extract_features (fun _ => 0) (fun _ => 0) (fun _ => 0) drawingC8
      = some fs ∧
    fs.lookup "geom.mean_pressure" = some 1 ∧
    claimMeanPressure strokesC8 = 1/2 ∧
    (1 : ℚ) ≠ 1/2 := by
  have hc : collectColors (drawingC8.strokes.getD [])
      = some ([((0:ℚ), (0:ℚ), (0:ℚ)), ((0:ℚ), (0:ℚ), (0:ℚ))], [(1:ℚ), (1:ℚ)]) := by
    norm_num +decide [collectColors, startsWithHash, parseColor_black,
      rgb_to_hsv, pyMod6, drawingC8, strokesC8]
  obtain ⟨cf, hcomp⟩ := comp_isSome_of_inBounds (fun _ => 0)
    (drawingC8.strokes.getD []) (drawingC8.canvas_w.getD 800)
    (drawingC8.canvas_h.getD 600) (by
      intro p hp
      have hps : allPointsOf (drawingC8.strokes.getD [])
          = [((0:ℚ), (0:ℚ)), (0, 0), (1, 0)] := rfl
      rw [hps] at hp
      fin_cases hp <;>
        exact inBounds_of_nonneg _ _ (by norm_num [drawingC8])
          (by norm_num [drawingC8]) _ (by norm_num) (by norm_num))
  have he := extract_features_eq (fun _ => 0) (fun _ => 0) (fun _ => 0)
    drawingC8 cf _ (by decide) hcomp hc
  refine ⟨_, he, ?_, ?_, by norm_num⟩
  · rcases comp_shape (fun _ => 0) (drawingC8.strokes.getD [])
      (drawingC8.canvas_w.getD 800) (drawingC8.canvas_h.getD 600) cf hcomp with
      hcf | hcf <;>
      rw [hcf] <;>
      simp [extract_geometry_features, List.lookup] <;>
      norm_num +decide [pressuresOf, validStrokes, strokePts, drawingC8,
        strokesC8]
  · norm_num +decide [claimMeanPressure, pressuresAll, strokePts, strokesC8,
      npMean, List.filterMap]

/-- C8 (witness): the amended theorem applied to the fixture drawing. -/
theorem C8_witness :
    ∃ fs, extract_features (fun _ => 0) (fun _ => 0) (fun _ => 0) drawingC8
        = some fs ∧
      fs.lookup "geom.mean_pressure" =
        some (if pressuresOf (drawingC8.strokes.getD []) = [] then 1
          else npMean (pressuresOf (drawingC8.strokes.getD []))) := by
  have hc : collectColors (drawingC8.strokes.getD [])
      = some ([((0:ℚ), (0:ℚ), (0:ℚ)), ((0:ℚ), (0:ℚ), (0:ℚ))], [(1:ℚ), (1:ℚ)]) := by
    norm_num +decide [collectColors, startsWithHash, parseColor_black,
      rgb_to_hsv, pyMod6, drawingC8, strokesC8]
  obtain ⟨cf, hcomp⟩ := comp_isSome_of_inBounds (fun _ => 0)
    (drawingC8.strokes.getD []) (drawingC8.canvas_w.getD 800)
    (drawingC8.canvas_h.getD 600) (by
      intro p hp
      have hps : allPointsOf (drawingC8.strokes.getD [])
          = [((0:ℚ), (0:ℚ)), (0, 0), (1, 0)] := rfl
      rw [hps] at hp
      fin_cases hp <;>
        exact inBounds_of_nonneg _ _ (by norm_num [drawingC8])
          (by norm_num [drawingC8]) _ (by norm_num) (by norm_num))
  have he := extract_features_eq (fun _ => 0) (fun _ => 0) (fun _ => 0)
    drawingC8 cf _ (by decide) hcomp hc
  exact ⟨_, he, (C8_pressure_stats (fun _ => 0) (fun _ => 0) (fun _ => 0)
    drawingC8 _ he (by decide)).1⟩

/-! ## Claim C9 -/


theorem pyMod6_mem (x : ℚ) : 0 ≤ pyMod6 x ∧ pyMod6 x < 6 := by
  unfold pyMod6
  have h1 : (⌊x / 6⌋ : ℚ) ≤ x / 6 := Int.floor_le _
  have h2 : x / 6 < ⌊x / 6⌋ + 1 := Int.lt_floor_add_one _
  constructor <;> linarith

theorem rgb_to_hsv_hue_mem (r g b : ℚ) :
    0 ≤ (rgb_to_hsv r g b).1 ∧ (rgb_to_hsv r g b).1 < 1 := by
  have hexpr : (rgb_to_hsv r g b).1 =
      (if max r (max g b) - min r (min g b) = 0 then 0
       else if max r (max g b) = r then
         pyMod6 ((g - b) / (max r (max g b) - min r (min g b)))
       else if max r (max g b) = g then
         (b - r) / (max r (max g b) - min r (min g b)) + 2
       else (r - g) / (max r (max g b) - min r (min g b)) + 4) / 6 := rfl
  rw [hexpr]
  set M := max r (max g b) with hM
  set m := min r (min g b) with hm
  have hd0 : 0 ≤ M - m := by
    have : m ≤ M := le_trans (min_le_left _ _) (le_max_left _ _)
    linarith
  suffices h : 0 ≤ (if M - m = 0 then (0:ℚ)
      else if M = r then pyMod6 ((g - b) / (M - m))
      else if M = g then (b - r) / (M - m) + 2
      else (r - g) / (M - m) + 4) ∧
      (if M - m = 0 then (0:ℚ)
      else if M = r then pyMod6 ((g - b) / (M - m))
      else if M = g then (b - r) / (M - m) + 2
      else (r - g) / (M - m) + 4) < 6 by
    constructor
    · exact div_nonneg h.1 (by norm_num)
    · rw [div_lt_one (by norm_num : (0:ℚ) < 6)]
      exact h.2
  by_cases hd : M - m = 0
  · rw [if_pos hd]
    norm_num
  · have hdpos : 0 < M - m := lt_of_le_of_ne hd0 (Ne.symm hd)
    rw [if_neg hd]
    by_cases hr : M = r
    · rw [if_pos hr]
      exact pyMod6_mem _
    · rw [if_neg hr]
      by_cases hg : M = g
      · rw [if_pos hg]
        have h1 : b ≤ M := le_trans (le_max_right g b) (le_max_right r _)
        have h2 : m ≤ r := min_le_left _ _
        have h3 : r ≤ M := le_max_left _ _
        have h4 : m ≤ b := le_trans (min_le_right r _) (min_le_right g b)
        have hq1 : (b - r) / (M - m) ≤ 1 := by
          rw [div_le_one hdpos]
          linarith
        have hq2 : (-1 : ℚ) ≤ (b - r) / (M - m) := by
          rw [neg_le, ← neg_div, div_le_one hdpos]
          linarith
        constructor <;> linarith
      · rw [if_neg hg]
        have h1 : r ≤ M := le_max_left _ _
        have h2 : m ≤ g := le_trans (min_le_right r _) (min_le_left g b)
        have h3 : g ≤ M := le_trans (le_max_left g b) (le_max_right r _)
        have h4 : m ≤ r := min_le_left _ _
        have hq1 : (r - g) / (M - m) ≤ 1 := by
          rw [div_le_one hdpos]
          linarith
        have hq2 : (-1 : ℚ) ≤ (r - g) / (M - m) := by
          rw [neg_le, ← neg_div, div_le_one hdpos]
          linarith
        constructor <;> linarith

theorem collectColors_hue_shape (strokes : List Stroke)
    (pr : List (ℚ × ℚ × ℚ) × List ℚ)
    (hc : collectColors strokes = some pr) :
    ∀ c ∈ pr.1, ∃ r g b, c = rgb_to_hsv r g b := by
  induction strokes generalizing pr with
  | nil =>
    cases Option.some.inj hc
    intro c hcm
    cases hcm
  | cons a l ih =>
    rw [show collectColors (a :: l) =
      (if startsWithHash (a.color.getD "#000000") then
        match parseColor (a.color.getD "#000000") with
        | none => none
        | some rgb => (collectColors l).map (fun pr =>
            (rgb_to_hsv rgb.1 rgb.2.1 rgb.2.2 :: pr.1, (a.opacity.getD 1) :: pr.2))
       else (collectColors l).map (fun pr => (pr.1, (a.opacity.getD 1) :: pr.2)))
      from rfl] at hc
    by_cases hh : startsWithHash (a.color.getD "#000000") = true
    · rw [if_pos hh] at hc
      cases hp : parseColor (a.color.getD "#000000") with
      | none =>
        rw [hp] at hc
        cases hc
      | some rgb =>
        rw [hp] at hc
        cases hrest : collectColors l with
        | none =>
          rw [hrest] at hc
          cases hc
        | some pr2 =>
          rw [hrest] at hc
          have heq := Option.some.inj hc
          subst heq
          intro c hcm
          rcases List.mem_cons.1 hcm with rfl | hcm2
          · exact ⟨rgb.1, rgb.2.1, rgb.2.2, rfl⟩
          · exact ih pr2 hrest c hcm2
    · rw [if_neg hh] at hc
      cases hrest : collectColors l with
      | none =>
        rw [hrest] at hc
        cases hc
      | some pr2 =>
        rw [hrest] at hc
        have heq := Option.some.inj hc
        subst heq
        intro c hcm
        exact ih pr2 hrest c hcm

theorem pyRound_bounds (q : ℚ) (h0 : 0 ≤ q) (h12 : q < 12) :
    0 ≤ pyRound q ∧ pyRound q ≤ 12 := by
  have hexpr : pyRound q =
      (if q - ⌊q⌋ < 1/2 then ⌊q⌋
       else if 1/2 < q - ⌊q⌋ then ⌊q⌋ + 1
       else if ⌊q⌋ % 2 = 0 then ⌊q⌋ else ⌊q⌋ + 1) := rfl
  rw [hexpr]
  have hf0 : 0 ≤ ⌊q⌋ := Int.floor_nonneg.2 h0
  have hf1 : ⌊q⌋ < 12 := by
    rw [Int.floor_lt]
    push_cast
    exact h12
  split_ifs <;> constructor <;> omega

theorem dedup_length_le_13 (l : List ℤ) (h : ∀ x ∈ l, 0 ≤ x ∧ x ≤ 12) :
    l.dedup.length ≤ 13 := by
  rw [← List.card_toFinset]
  have hsub : l.toFinset ⊆ Finset.Icc (0 : ℤ) 12 := by
    intro x hx
    rw [List.mem_toFinset] at hx
    rw [Finset.mem_Icc]
    exact h x hx
  calc l.toFinset.card ≤ (Finset.Icc (0 : ℤ) 12).card := Finset.card_le_card hsub
    _ = 13 := by
      rw [Int.card_Icc]
      rfl

theorem C9_palette_size (sq : ℚ → ℚ) (strokes : List Stroke)
    (cs : List (String × ℚ))
    (he : extract_color_features sq strokes = some cs) :
    ∃ colors opacities, collectColors strokes = some (colors, opacities) ∧
      cs.lookup "color.palette_size" =
        some (if colors = [] then 1
          else (((colors.map (fun c => pyRound (c.1 * 12))).dedup.length : ℕ) : ℚ)) ∧
      (∀ c ∈ colors, 0 ≤ c.1 ∧ c.1 < 1) ∧
      (colors.map (fun c => pyRound (c.1 * 12))).dedup.length ≤ 13 := by
  unfold extract_color_features at he
  cases hc : collectColors strokes with
  | none =>
    rw [hc] at he
    cases he
  | some pr =>
    rw [hc] at he
    obtain ⟨colors, opacities⟩ := pr
    have hcs := Option.some.inj he
    refine ⟨colors, opacities, rfl, ?_, ?_, ?_⟩
    · rw [← hcs]
      simp only [colorFeatureList, List.lookup, List.map_map]
      rfl
    · intro c hcm
      obtain ⟨r, g, b, rfl⟩ :=
        collectColors_hue_shape strokes (colors, opacities) hc c hcm
      exact rgb_to_hsv_hue_mem r g b
    · apply dedup_length_le_13
      intro x hx
      rw [List.mem_map] at hx
      obtain ⟨c, hcm, rfl⟩ := hx
      obtain ⟨r, g, b, rfl⟩ :=
        collectColors_hue_shape strokes (colors, opacities) hc c hcm
      have hm := rgb_to_hsv_hue_mem r g b
      exact pyRound_bounds _ (by nlinarith [hm.1]) (by nlinarith [hm.2])




set_option maxHeartbeats 2000000 in
theorem hcC9 : collectColors (drawingC9.strokes.getD [])
    = some (colorsC9, [1, 1, 1, 1, 1, 1, 1, 1, 1, 1, 1, 1, 1]) := by
  norm_num +decide [collectColors, startsWithHash, parseColor, parseHexSlice,
    pyIntHex_00, pyIntHex_01, pyIntHex_80, pyIntHex_FF, bind,
    Option.some_bind, rgb_to_hsv, pyMod6, drawingC9, strokesC9, colorsC9]

theorem lookup_append_of_not_key {β : Type} (l1 l2 : List (String × β))
    (k : String) (h : k ∉ l1.map Prod.fst) :
    (l1 ++ l2).lookup k = l2.lookup k := by
  induction l1 with
  | nil => rfl
  | cons a l ih =>
    obtain ⟨a1, b1⟩ := a
    rw [List.map_cons] at h
    rw [List.cons_append, List.lookup_cons]
    have hk : (k == a1) = false := beq_eq_false_iff_ne.2 (fun he => h (by
      rw [he]
      exact List.mem_cons_self _ _))
    rw [hk]
    exact ih (fun hm => h (List.mem_cons_of_mem _ hm))

theorem C9_counterexample :
    ∃ fs, extract_features (fun _ => 0) (fun _ => 0) (fun _ => 0) drawingC9
      = some fs ∧
    fs.lookup "color.palette_size" = some 13 ∧
    ¬ ((13 : ℚ) ≤ 12) := by
  have hcomp9 : extract_composition_features (fun _ => 0)
      (drawingC9.strokes.getD []) (drawingC9.canvas_w.getD 800)
      (drawingC9.canvas_h.getD 600) = some [] := by decide
  have he := extract_features_eq (fun _ => 0) (fun _ => 0) (fun _ => 0)
    drawingC9 [] _ (by decide) hcomp9 hcC9
  refine ⟨_, he, ?_, by norm_num⟩
  rw [List.append_assoc]
  rw [lookup_append_of_not_key]
  · rw [show List.lookup "color.palette_size"
        (colorFeatureList (fun _ => 0) (colorsC9, [1,1,1,1,1,1,1,1,1,1,1,1,1]).1
            (colorsC9, ([1,1,1,1,1,1,1,1,1,1,1,1,1] : List ℚ)).2
          ++ extract_layering_features (fun _ => 0) (drawingC9.strokes.getD []))
        = some (if colorsC9 = [] then 1
            else (((colorsC9.map (fun c => c.1)).map
              (fun h => pyRound (h * 12))).dedup.length : ℕ) : ℚ)
      from rfl]
    rw [if_neg (by decide)]
    have hm : (colorsC9.map (fun c => c.1)).map (fun h => pyRound (h * 12))
        = [0, 1, 2, 3, 4, 5, 6, 7, 8, 9, 10, 11, 12] := by
      norm_num [colorsC9, pyRound]
      simp only [Int.fract]
      norm_num
    have hd : ([0, 1, 2, 3, 4, 5, 6, 7, 8, 9, 10, 11, 12] : List ℤ).dedup.length
        = 13 := by decide
    rw [hm, hd]
    norm_num
  · decide

/-- C9 (witness): the amended theorem applied to the 13-color fixture. -/
theorem C9_witness :
    ∃ colors opacities,
      collectColors (drawingC9.strokes.getD []) = some (colors, opacities) ∧
      (colorFeatureList (fun _ => 0) colorsC9
          [1, 1, 1, 1, 1, 1, 1, 1, 1, 1, 1, 1, 1]).lookup "color.palette_size" =
        some (if colors = [] then 1
          else (((colors.map (fun c => pyRound (c.1 * 12))).dedup.length : ℕ) : ℚ)) ∧
      (∀ c ∈ colors, 0 ≤ c.1 ∧ c.1 < 1) ∧
      (colors.map (fun c => pyRound (c.1 * 12))).dedup.length ≤ 13 := by
  have he : extract_color_features (fun _ => 0) (drawingC9.strokes.getD [])
      = some (colorFeatureList (fun _ => 0) colorsC9
          [1, 1, 1, 1, 1, 1, 1, 1, 1, 1, 1, 1, 1]) := by
    unfold extract_color_features
    rw [hcC9]
    rfl
  exact C9_palette_size (fun _ => 0) (drawingC9.strokes.getD []) _ he
